import Mathlib

/-!
Shallow embedding of the crime-dashboard script (`app.py`).

The program loads a CSV table, normalizes column labels, backfills two
optional dimension columns, validates the schema, cleans the rows,
filters by a (state, district, year) selection and renders four views.
Column labels and string cell contents are modelled as lists of Unicode
code points (`List Nat`); cells are a sum of string, numeric and null
(pandas `NaN`) values.  Numeric cell contents are modelled as integers.
-/

namespace CrimeApp

/-- A column label / string payload: the list of code points. -/
abbrev Label := List Nat

/-- Code points of a string literal. -/
def lbl (s : String) : Label := (s.toList).map Char.toNat

/-- Canonical column `STATE/UT`. -/
def cSTATE : Label := lbl "STATE/UT"

/-- Canonical column `DISTRICT`. -/
def cDISTRICT : Label := lbl "DISTRICT"

/-- Canonical column `YEAR`. -/
def cYEAR : Label := lbl "YEAR"

/-- Canonical column `TOTAL IPC CRIMES`. -/
def cTOTAL : Label := lbl "TOTAL IPC CRIMES"

/-- A cell value: a string, a number, or null (pandas `NaN`). -/
inductive Value where
  | str (v : Label)
  | num (v : Int)
  | null
deriving DecidableEq, Repr

/-- A row: an association list from column label to cell value. -/
abbrev Row := List (Label × Value)

/-- An in-memory table: the column header list plus the rows. -/
structure Table where
  cols : List Label
  rows : List Row
deriving DecidableEq, Repr

/-- Cell lookup in a row (first entry with the given key), `none` if absent. -/
def getCell : Row → Label → Option Value
  | [], _ => none
  | kv :: r, c => if kv.1 = c then some kv.2 else getCell r c

/-! ### Column Normalizer (`df.columns.str.strip().str.replace ... .str.upper()`) -/

/-- Whitespace code points stripped by `str.strip` (ASCII range). -/
def isWS (n : Nat) : Bool := n = 32 || (9 ≤ n && n ≤ 13)

/-- Drop trailing whitespace. -/
def dropEndWS (l : Label) : Label := ((l.reverse).dropWhile isWS).reverse

/-- `str.strip`: remove leading and trailing whitespace. -/
def stripLabel (l : Label) : Label := dropEndWS (l.dropWhile isWS)

/-- `str.replace c -> empty`: remove every occurrence of the code point `c`. -/
def removeCh (c : Nat) (l : Label) : Label := l.filter (fun x => x ≠ c)

/-- ASCII upper-casing of one code point (`str.upper`). -/
def upCh (n : Nat) : Nat := if 97 ≤ n ∧ n ≤ 122 then n - 32 else n

/-- `str.upper` on a label. -/
def upperLabel (l : Label) : Label := l.map upCh

/-- Per-label normalization: strip, remove newline (10), remove carriage
return (13), upper-case — the order used on line 31 of `app.py`. -/
def normalizeLabel (l : Label) : Label :=
  upperLabel (removeCh 13 (removeCh 10 (stripLabel l)))

/-- The fixed `rename_map` of `app.py` (the `DISTRICT` and `YEAR` entries
are identities and therefore no-ops). -/
def renameCol (c : Label) : Label :=
  if c = lbl "STATES/UTS" then cSTATE
  else if c = lbl "STATE" then cSTATE
  else if c = lbl "TOTAL COGNIZABLE IPC CRIMES" then cTOTAL
  else c

/-- Apply a label transformation to the header and to every row key
(pandas column assignment / `df.rename` rename both). -/
def renameKeys (f : Label → Label) (t : Table) : Table :=
  { cols := t.cols.map f
    rows := t.rows.map (fun r => r.map (fun kv => (f kv.1, kv.2))) }

/-- The whole header transformation: per-label normalization followed by
the fixed rename table. -/
def normalizeColumns (t : Table) : Table :=
  renameKeys (fun c => renameCol (normalizeLabel c)) t

/-! ### Schema Backfiller and Validator (`app.py` lines 44-55) -/

/-- Header membership test (`c in df.columns`). -/
def hasCol (t : Table) (c : Label) : Bool := decide (c ∈ t.cols)

/-- Append a constant column (`df[c] = v` for a fresh column `c`). -/
def addColConst (c : Label) (v : Value) (t : Table) : Table :=
  { cols := t.cols ++ [c], rows := t.rows.map (fun r => r ++ [(c, v)]) }

/-- First backfill step: create `DISTRICT = "ALL"` when absent. -/
def backfillDistrict (t : Table) : Table :=
  if hasCol t cDISTRICT then t else addColConst cDISTRICT (.str (lbl "ALL")) t

/-- Second backfill step: create `YEAR = 2012` when absent. -/
def backfillYear (t : Table) : Table :=
  if hasCol t cYEAR then t else addColConst cYEAR (.num 2012) t

/-- Backfill: create `DISTRICT = "ALL"` when absent, then `YEAR = 2012`
when absent (`app.py` lines 44-49). -/
def backfill (t : Table) : Table := backfillYear (backfillDistrict t)

/-- The validator's check: the three canonical dimension columns exist. -/
def requiredPresent (t : Table) : Bool :=
  hasCol t cSTATE && hasCol t cDISTRICT && hasCol t cYEAR

/-! ### Filter/Selection Layer (`app.py` lines 62-87) -/

/-- Parse a sequence of decimal digit code points into a number
(accumulator form); `none` if some code point is not a digit. -/
def parseDigitsAux (acc : Nat) : Label → Option Nat
  | [] => some acc
  | d :: rest =>
    if 48 ≤ d ∧ d ≤ 57 then parseDigitsAux (acc * 10 + (d - 48)) rest else none

/-- Integer parse of a string payload (optional leading minus sign,
then decimal digits); models the successful cases of `pd.to_numeric`. -/
def parseIntStr (l : Label) : Option Int :=
  match l with
  | [] => none
  | 45 :: rest =>
    if rest = [] then none else (parseDigitsAux 0 rest).map (fun n => -(n : Int))
  | _ => (parseDigitsAux 0 l).map (fun n => (n : Int))

/-- `pd.to_numeric(v, errors='coerce')` on one cell: numbers pass
through, parseable strings become numbers, anything else becomes null. -/
def toNumericVal : Value → Value
  | .num v => .num v
  | .str s =>
    match parseIntStr s with
    | some k => .num k
    | none => .null
  | .null => .null

/-- Transform the value of the entry with key `c` in a row. -/
def mapRowAt (c : Label) (f : Value → Value) (r : Row) : Row :=
  r.map (fun kv => if kv.1 = c then (kv.1, f kv.2) else kv)

/-- `df[c] = f(df[c])`: transform one column's cells. -/
def mapColVals (c : Label) (f : Value → Value) (t : Table) : Table :=
  { cols := t.cols, rows := t.rows.map (mapRowAt c f) }

/-- A cell counts as missing when the key is absent or the value null. -/
def isNA : Option Value → Bool
  | none => true
  | some .null => true
  | some _ => false

/-- `df.dropna(subset=cs)`: keep the rows with no missing cell among
the given columns. -/
def dropNA (cs : List Label) (t : Table) : Table :=
  { cols := t.cols
    rows := t.rows.filter (fun r => cs.all (fun c => !(isNA (getCell r c)))) }

/-- Coerce the `YEAR` column to numeric (`app.py` line 62). -/
def coerceYear (t : Table) : Table := mapColVals cYEAR toNumericVal t

/-- The working dataset: coerce `YEAR`, then drop rows missing any of
the three dimension values (`app.py` lines 62-63). -/
def cleanTable (t : Table) : Table :=
  dropNA [cSTATE, cDISTRICT, cYEAR] (coerceYear t)

/-! ### Orders used by `sorted`, `groupby` and `sort_values` -/

/-- Lexicographic less-or-equal on code point lists. -/
def lexLE : Label → Label → Bool
  | [], _ => true
  | _ :: _, [] => false
  | a :: as, b :: bs => if a < b then true else if b < a then false else lexLE as bs

/-- Rank used to order values of different shapes. -/
def vrank : Value → Nat
  | .null => 0
  | .num _ => 1
  | .str _ => 2

/-- Total order on cell values: numbers by magnitude, strings
lexicographically, different shapes by rank. -/
def valLE : Value → Value → Bool
  | .num a, .num b => decide (a ≤ b)
  | .str a, .str b => lexLE a b
  | a, b => decide (vrank a ≤ vrank b)

/-- `valLE` as a relation. -/
def vle (a b : Value) : Prop := valLE a b = true

instance : DecidableRel vle := fun a b => instDecidableEqBool (valLE a b) true

/-- `sorted(...)` on a list of cell values. -/
def sortVals (l : List Value) : List Value := List.insertionSort vle l

/-- `df[c]` as a list of cell values (present keys only). -/
def columnValues (t : Table) (c : Label) : List Value :=
  t.rows.filterMap (fun r => getCell r c)

/-- `df[df['STATE/UT'] == s]`: the rows of one state. -/
def stateSlice (t : Table) (s : Value) : Table :=
  { cols := t.cols
    rows := t.rows.filter (fun r => decide (getCell r cSTATE = some s)) }

/-- `sorted(df['STATE/UT'].unique())`. -/
def stateOptions (t : Table) : List Value :=
  sortVals (columnValues t cSTATE).dedup

/-- `sorted(state_data['DISTRICT'].unique())`. -/
def districtOptions (t : Table) (s : Value) : List Value :=
  sortVals (columnValues (stateSlice t s) cDISTRICT).dedup

/-- `sorted(state_data['YEAR'].unique())`. -/
def yearOptions (t : Table) (s : Value) : List Value :=
  sortVals (columnValues (stateSlice t s) cYEAR).dedup

/-- The conjunction of the three exact-equality masks of `app.py`
lines 84-86. -/
def rowMatches (s d y : Value) (r : Row) : Bool :=
  decide (getCell r cSTATE = some s) && decide (getCell r cDISTRICT = some d) &&
    decide (getCell r cYEAR = some y)

/-- `filtered_data` (`app.py` lines 83-87). -/
def filteredData (t : Table) (s d y : Value) : Table :=
  { cols := t.cols, rows := t.rows.filter (rowMatches s d y) }

/-! ### Aggregation & Presentation Layer (`app.py` lines 89-135) -/

/-- Sum of the numeric cells of a list of values; nulls and strings are
skipped (pandas sums with `skipna`). -/
def sumNums (l : List Value) : Int :=
  l.foldr (fun v acc => match v with | .num n => n + acc | _ => acc) 0

/-- A column counts as numeric (for `sum(numeric_only=True)`) when every
cell of the parent table is a number or null. -/
def colIsNumeric (t : Table) (c : Label) : Bool :=
  (columnValues t c).all (fun v => match v with | .num _ => true | .null => true | .str _ => false)

/-- `filtered_data[selected_crimes].sum(numeric_only=True)`: one total
per selected crime column of numeric dtype (dtypes come from the parent
table the subset was sliced from). -/
def totalSelected (parent : Table) (rows : List Row) (crimes : List Label) :
    List (Label × Int) :=
  (crimes.filter (fun c => colIsNumeric parent c)).map
    (fun c => (c, sumNums (rows.filterMap (fun r => getCell r c))))

/-- The pie-chart input: the per-category totals after dropping the
non-positive entries (`cleaned = cleaned[cleaned > 0]`); the totals are
already numeric, so `pd.to_numeric(...).dropna()` leaves them unchanged. -/
def pieValues (parent : Table) (rows : List Row) (crimes : List Label) :
    List (Label × Int) :=
  (totalSelected parent rows crimes).filter (fun p => decide (0 < p.2))

/-- Group keys of `df.groupby(c)`: the distinct non-null cell values of
the column, in ascending order (pandas sorts group keys and drops null
keys). -/
def groupKeys (t : Table) (c : Label) : List Value :=
  sortVals ((columnValues t c).filter (fun v => v ≠ Value.null)).dedup

/-- `df.groupby(kc)[vc].sum()`: one (key, sum) pair per distinct key,
keys ascending. -/
def groupSum (t : Table) (kc vc : Label) : List (Value × Int) :=
  (groupKeys t kc).map (fun k =>
    (k, sumNums ((t.rows.filter (fun r => decide (getCell r kc = some k))).filterMap
      (fun r => getCell r vc))))

/-- Descending order on (key, sum) pairs by the summed value
(`sort_values(ascending=False)`). -/
def pairDesc (a b : Value × Int) : Prop := b.2 ≤ a.2

instance : DecidableRel pairDesc := fun a b => Int.decLe b.2 a.2

/-- Ascending order on (key, sum) pairs by key (`sort_index()`). -/
def pairKeyAsc (a b : Value × Int) : Prop := vle a.1 b.1

instance : DecidableRel pairKeyAsc := fun a b => instDecidableEqBool (valLE a.1 b.1) true

/-- `top_states` (`app.py` lines 118-119): coerce `TOTAL IPC CRIMES`
to numeric, group the working table by state summing it, sort the sums
descending and keep the first five. -/
def top5 (t : Table) : List (Value × Int) :=
  (List.insertionSort pairDesc
    (groupSum (mapColVals cTOTAL toNumericVal t) cSTATE cTOTAL)).take 5

/-- `trend_data` (`app.py` lines 127-129): restrict to the selected
state, coerce `TOTAL IPC CRIMES` to numeric, group by year summing it,
sort ascending by year. -/
def trendData (t : Table) (s : Value) : List (Value × Int) :=
  List.insertionSort pairKeyAsc
    (groupSum (mapColVals cTOTAL toNumericVal (stateSlice t s)) cYEAR cTOTAL)

/-- `filtered_data[selected_crimes]` on one row. -/
def projRow (crimes : List Label) (r : Row) : List (Label × Option Value) :=
  crimes.map (fun c => (c, getCell r c))

/-- The four views; a `none` field means the view degraded to an
informational / warning message instead of rendered content. -/
structure Views where
  tableView : Option (List (List (Label × Option Value)))
  pieView : Option (List (Label × Int))
  rankView : Option (List (Value × Int))
  trendView : Option (List (Value × Int))
deriving DecidableEq, Repr

/-- Filtered-table view (`app.py` lines 91-92 / 112): shown only when
the filtered subset is non-empty and some crime column is selected. -/
def tableViewOf (c : Table) (s d y : Value) (crimes : List Label) :
    Option (List (List (Label × Option Value))) :=
  if (filteredData c s d y).rows ≠ [] ∧ crimes ≠ [] then
    some ((filteredData c s d y).rows.map (projRow crimes))
  else none

/-- Pie view (`app.py` lines 99-110): inside the same guard, shown only
when positive totals remain. -/
def pieViewOf (c : Table) (s d y : Value) (crimes : List Label) :
    Option (List (Label × Int)) :=
  if (filteredData c s d y).rows ≠ [] ∧ crimes ≠ [] ∧
      pieValues c (filteredData c s d y).rows crimes ≠ [] then
    some (pieValues c (filteredData c s d y).rows crimes)
  else none

/-- Ranking view (`app.py` lines 115-123): attempted only when the
total column exists; shown only when the grouped result is non-empty. -/
def rankViewOf (c : Table) : Option (List (Value × Int)) :=
  if hasCol c cTOTAL ∧ top5 c ≠ [] then some (top5 c) else none

/-- Trend view (`app.py` lines 125-133): same precondition on the total
column; shown only when the grouped series is non-empty. -/
def trendViewOf (c : Table) (s : Value) : Option (List (Value × Int)) :=
  if hasCol c cTOTAL ∧ trendData c s ≠ [] then some (trendData c s) else none

/-- All four views, each computed independently of the others. -/
def mkViews (c : Table) (s d y : Value) (crimes : List Label) : Views :=
  { tableView := tableViewOf c s d y crimes
    pieView := pieViewOf c s d y crimes
    rankView := rankViewOf c
    trendView := trendViewOf c s }

/-- The user selection: one state, district and year plus the selected
crime columns. -/
structure Selection where
  state : Value
  district : Value
  year : Value
  crimes : List Label

/-- Result of one run of the script: one of the three fatal stops, or
the four views. -/
inductive AppResult where
  | fatalNoFiles
  | fatalParse
  | fatalMissingCols
  | ok (v : Views)
deriving DecidableEq, Repr

/-- One top-to-bottom run of `app.py`: `files` is the CSV listing,
`parsed` the outcome of `pd.read_csv` on the chosen file (`none` =
parse failure), `sel` the sidebar selection. -/
def runApp (files : List Label) (parsed : Option Table) (sel : Selection) :
    AppResult :=
  if files = [] then .fatalNoFiles
  else
    match parsed with
    | none => .fatalParse
    | some raw =>
      let t := backfill (normalizeColumns raw)
      if requiredPresent t then
        .ok (mkViews (cleanTable t) sel.state sel.district sel.year sel.crimes)
      else .fatalMissingCols

/-- A small concrete dataset: one state `X`, district `D1` occurring
only in year 2001 and district `D2` only in year 2002. -/
def demoTable : Table :=
  { cols := [cSTATE, cDISTRICT, cYEAR, lbl "MURDER", cTOTAL]
    rows :=
      [[(cSTATE, .str (lbl "X")), (cDISTRICT, .str (lbl "D1")), (cYEAR, .num 2001),
        (lbl "MURDER", .num 5), (cTOTAL, .num 40)],
       [(cSTATE, .str (lbl "X")), (cDISTRICT, .str (lbl "D2")), (cYEAR, .num 2002),
        (lbl "MURDER", .num 7), (cTOTAL, .num 50)]] }

/-! ### Helper lemmas -/

/-- Tables produced by the tabular library are well-formed: every row
key appears in the header. -/
def Wf (t : Table) : Prop := ∀ r ∈ t.rows, ∀ kv ∈ r, kv.1 ∈ t.cols

instance (t : Table) : Decidable (Wf t) := by
  unfold Wf; infer_instance

theorem upCh_idem (n : Nat) : upCh (upCh n) = upCh n := by
  unfold upCh; split_ifs <;> omega

theorem upCh_eq_ten {n : Nat} (h : upCh n = 10) : n = 10 := by
  unfold upCh at h; split_ifs at h <;> omega

theorem upCh_eq_thirteen {n : Nat} (h : upCh n = 13) : n = 13 := by
  unfold upCh at h; split_ifs at h <;> omega

theorem isWS_false_iff {n : Nat} : isWS n = false ↔ n ≠ 32 ∧ ¬(9 ≤ n ∧ n ≤ 13) := by
  simp [isWS]

theorem isWS_upCh_false {n : Nat} (h : isWS n = false) : isWS (upCh n) = false := by
  rw [isWS_false_iff] at h ⊢
  unfold upCh; split_ifs <;> omega

theorem getCell_mapRowAt_self (c : Label) (f : Value → Value) (r : Row) :
    getCell (mapRowAt c f r) c = (getCell r c).map f := by
  induction r with
  | nil => rfl
  | cons kv r ih =>
    by_cases h : kv.1 = c
    · simp [mapRowAt, getCell, h]
    · simpa [mapRowAt, getCell, h] using ih

theorem getCell_mapRowAt_ne (c c' : Label) (f : Value → Value) (r : Row) (h : c' ≠ c) :
    getCell (mapRowAt c f r) c' = getCell r c' := by
  induction r with
  | nil => rfl
  | cons kv r ih =>
    have hcc : ¬ c = c' := fun hh => h hh.symm
    by_cases hk : kv.1 = c
    · simpa [mapRowAt, getCell, hk, hcc] using ih
    · by_cases hk' : kv.1 = c'
      · simp [mapRowAt, getCell, hk, hk', h]
      · simpa [mapRowAt, getCell, hk, hk'] using ih

theorem getCell_append_ne (r : Row) (c c' : Label) (v : Value) (h : c' ≠ c) :
    getCell (r ++ [(c, v)]) c' = getCell r c' := by
  induction r with
  | nil =>
    have hcc : ¬ c = c' := fun hh => h hh.symm
    simp [getCell, hcc]
  | cons kv r ih =>
    by_cases hk : kv.1 = c'
    · simp [getCell, hk]
    · simpa [getCell, hk] using ih

theorem getCell_append_none (r : Row) (c : Label) (v : Value) (h : getCell r c = none) :
    getCell (r ++ [(c, v)]) c = some v := by
  induction r with
  | nil => simp [getCell]
  | cons kv r ih =>
    by_cases hk : kv.1 = c
    · simp [getCell, hk] at h
    · simp [getCell, hk] at h ⊢
      exact ih h

theorem getCell_none_of_not_key (r : Row) (c : Label) (h : ∀ kv ∈ r, kv.1 ≠ c) :
    getCell r c = none := by
  induction r with
  | nil => rfl
  | cons kv r ih =>
    have h1 := h kv (by simp)
    simp [getCell, h1]
    exact ih (fun kv hkv => h kv (by simp [hkv]))

theorem toNumericVal_num_or_null (v : Value) :
    (∃ n, toNumericVal v = Value.num n) ∨ toNumericVal v = Value.null := by
  cases v with
  | num n => exact Or.inl ⟨n, rfl⟩
  | null => exact Or.inr rfl
  | str s =>
    cases h : parseIntStr s with
    | none => exact Or.inr (by simp [toNumericVal, h])
    | some k => exact Or.inl ⟨k, by simp [toNumericVal, h]⟩

theorem isNA_false_iff {o : Option Value} :
    isNA o = false ↔ ∃ v, o = some v ∧ v ≠ Value.null := by
  cases o with
  | none => simp [isNA]
  | some v => cases v <;> simp [isNA]

theorem lexLE_cons_iff (a b : Nat) (as bs : Label) :
    lexLE (a :: as) (b :: bs) = true ↔ (a < b ∨ (a = b ∧ lexLE as bs = true)) := by
  by_cases h1 : a < b
  · simp [lexLE, h1]
  · by_cases h2 : b < a
    · simp [lexLE, h1, h2, show a ≠ b by omega]
    · have h3 : a = b := by omega
      simp [lexLE, h1, h2, h3]

theorem lexLE_total : ∀ a b : Label, lexLE a b = true ∨ lexLE b a = true
  | [], _ => Or.inl rfl
  | _ :: _, [] => Or.inr rfl
  | a :: as, b :: bs => by
    rcases Nat.lt_trichotomy a b with h | h | h
    · exact Or.inl (by simp [lexLE, h])
    · subst h
      rcases lexLE_total as bs with ih | ih
      · exact Or.inl (by simp [lexLE_cons_iff, ih])
      · exact Or.inr (by simp [lexLE_cons_iff, ih])
    · exact Or.inr (by simp [lexLE, h])

theorem lexLE_trans : ∀ a b c : Label,
    lexLE a b = true → lexLE b c = true → lexLE a c = true
  | [], _, _, _, _ => rfl
  | _ :: _, [], _, h, _ => by simp [lexLE] at h
  | _ :: _, _ :: _, [], _, h => by simp [lexLE] at h
  | a :: as, b :: bs, c :: cs, h1, h2 => by
    rw [lexLE_cons_iff] at h1 h2 ⊢
    rcases h1 with h1 | ⟨rfl, h1⟩
    · rcases h2 with h2 | ⟨rfl, h2⟩
      · exact Or.inl (Nat.lt_trans h1 h2)
      · exact Or.inl h1
    · rcases h2 with h2 | ⟨rfl, h2⟩
      · exact Or.inl h2
      · exact Or.inr ⟨rfl, lexLE_trans as bs cs h1 h2⟩

theorem valLE_total (a b : Value) : valLE a b = true ∨ valLE b a = true := by
  cases a <;> cases b <;>
    simp only [valLE, vrank, decide_eq_true_eq] <;>
    first
      | omega
      | exact lexLE_total _ _

theorem valLE_trans (a b c : Value) (h1 : valLE a b = true) (h2 : valLE b c = true) :
    valLE a c = true := by
  cases a <;> cases b <;> cases c <;>
    simp only [valLE, vrank, decide_eq_true_eq] at h1 h2 ⊢ <;>
    first
      | rfl
      | omega
      | exact lexLE_trans _ _ _ h1 h2

instance : IsTotal Value vle := ⟨fun a b => valLE_total a b⟩

instance : IsTrans Value vle := ⟨fun a b c => valLE_trans a b c⟩

instance : IsTotal (Value × Int) pairDesc := ⟨fun a b => Int.le_total b.2 a.2⟩

instance : IsTrans (Value × Int) pairDesc := ⟨fun _ _ _ h1 h2 => Int.le_trans h2 h1⟩

instance : IsTotal (Value × Int) pairKeyAsc := ⟨fun a b => valLE_total a.1 b.1⟩

instance : IsTrans (Value × Int) pairKeyAsc := ⟨fun a b c => valLE_trans a.1 b.1 c.1⟩

theorem mem_cleanTable_rows {t : Table} {r : Row} (h : r ∈ (cleanTable t).rows) :
    (∃ v, getCell r cSTATE = some v ∧ v ≠ Value.null) ∧
    (∃ v, getCell r cDISTRICT = some v ∧ v ≠ Value.null) ∧
    (∃ n : Int, getCell r cYEAR = some (Value.num n)) := by
  simp only [cleanTable, dropNA, List.mem_filter] at h
  obtain ⟨hmem, hall⟩ := h
  rw [List.all_eq_true] at hall
  have hS := hall cSTATE (by simp)
  have hD := hall cDISTRICT (by simp)
  have hY := hall cYEAR (by simp)
  rw [Bool.not_eq_true', isNA_false_iff] at hS hD hY
  refine ⟨hS, hD, ?_⟩
  simp only [coerceYear, mapColVals, List.mem_map] at hmem
  obtain ⟨r0, _, rfl⟩ := hmem
  obtain ⟨v, hv, hvn⟩ := hY
  rw [getCell_mapRowAt_self] at hv ⊢
  rw [Option.map_eq_some'] at hv
  obtain ⟨w, hw, rfl⟩ := hv
  rcases toNumericVal_num_or_null w with ⟨n, hn⟩ | hn
  · exact ⟨n, by rw [hw, Option.map_some', hn]⟩
  · exact absurd hn hvn

theorem columnValues_mapColVals_ne (c c' : Label) (f : Value → Value) (t : Table)
    (h : c' ≠ c) : columnValues (mapColVals c f t) c' = columnValues t c' := by
  simp only [columnValues, mapColVals, List.filterMap_map]
  congr 1
  funext r
  exact getCell_mapRowAt_ne c c' f r h

theorem groupSum_keys (t : Table) (kc vc : Label) :
    (groupSum t kc vc).map Prod.fst = groupKeys t kc := by
  unfold groupSum
  rw [List.map_map]
  exact List.map_id' _

theorem groupKeys_nodup (t : Table) (c : Label) : (groupKeys t c).Nodup := by
  unfold groupKeys sortVals
  exact ((List.perm_insertionSort vle _).nodup_iff).mpr (List.nodup_dedup _)

theorem mem_groupKeys {t : Table} {c : Label} {k : Value} :
    k ∈ groupKeys t c ↔ k ∈ columnValues t c ∧ k ≠ Value.null := by
  unfold groupKeys sortVals
  rw [List.mem_insertionSort, List.mem_dedup, List.mem_filter]
  simp

/-! ### Whitespace-edge lemmas for the normalizer -/

/-- The first code point, when there is one, is not whitespace. -/
def NoWSHead (l : Label) : Prop := ∀ a, l.head? = some a → isWS a = false

theorem noWSHead_nil : NoWSHead [] := fun _ h => by simp at h

theorem noWSHead_dropWhile (l : Label) : NoWSHead (l.dropWhile isWS) := by
  induction l with
  | nil => exact noWSHead_nil
  | cons a t ih =>
    cases h : isWS a with
    | true => simpa [List.dropWhile_cons, h] using ih
    | false =>
      intro x hx
      simp [List.dropWhile_cons, h] at hx
      rw [← hx]
      exact h

theorem noWSHead_eq_self {l : Label} (h : NoWSHead l) : l.dropWhile isWS = l := by
  cases l with
  | nil => rfl
  | cons a t =>
    have ha := h a rfl
    simp [List.dropWhile_cons, ha]

theorem noWSHead_filter {l : Label} {q : Nat → Bool} (h : NoWSHead l)
    (hq : ∀ a, isWS a = false → q a = true) : NoWSHead (l.filter q) := by
  cases l with
  | nil => exact noWSHead_nil
  | cons a t =>
    have ha := h a rfl
    rw [List.filter_cons_of_pos (hq a ha)]
    intro x hx
    simp at hx
    rw [← hx]
    exact ha

theorem noWSHead_map_upCh {l : Label} (h : NoWSHead l) : NoWSHead (l.map upCh) := by
  intro x hx
  rw [List.head?_map] at hx
  cases hl : l.head? with
  | none => rw [hl] at hx; simp at hx
  | some a =>
    rw [hl] at hx
    simp at hx
    rw [← hx]
    exact isWS_upCh_false (h a hl)

theorem noWSHead_dropEndWS {l : Label} (h : NoWSHead l) : NoWSHead (dropEndWS l) := by
  cases l with
  | nil => exact noWSHead_nil
  | cons a t =>
    have ha := h a rfl
    unfold dropEndWS
    rw [List.reverse_cons, List.dropWhile_append]
    by_cases he : (t.reverse.dropWhile isWS).isEmpty
    · rw [if_pos he]
      intro x hx
      simp [List.dropWhile_cons, ha] at hx
      rw [← hx]
      exact ha
    · rw [if_neg he]
      intro x hx
      rw [List.reverse_append] at hx
      simp at hx
      rw [← hx]
      exact ha

theorem noWSHead_strip (l : Label) : NoWSHead (stripLabel l) :=
  noWSHead_dropEndWS (noWSHead_dropWhile l)

theorem noWSHead_strip_rev (l : Label) : NoWSHead (stripLabel l).reverse := by
  unfold stripLabel dropEndWS
  rw [List.reverse_reverse]
  exact noWSHead_dropWhile _

theorem dropEndWS_eq_self {l : Label} (h : NoWSHead l.reverse) : dropEndWS l = l := by
  unfold dropEndWS
  rw [noWSHead_eq_self h, List.reverse_reverse]

theorem strip_eq_self {l : Label} (h1 : NoWSHead l) (h2 : NoWSHead l.reverse) :
    stripLabel l = l := by
  unfold stripLabel
  rw [noWSHead_eq_self h1, dropEndWS_eq_self h2]

theorem ws_imp_ne_ten : ∀ a : Nat, isWS a = false → decide (a ≠ 10) = true := by
  intro a ha
  rw [isWS_false_iff] at ha
  simp
  omega

theorem ws_imp_ne_thirteen : ∀ a : Nat, isWS a = false → decide (a ≠ 13) = true := by
  intro a ha
  rw [isWS_false_iff] at ha
  simp
  omega

theorem noWSHead_normalizeLabel (l : Label) : NoWSHead (normalizeLabel l) := by
  unfold normalizeLabel upperLabel removeCh
  exact noWSHead_map_upCh
    (noWSHead_filter (noWSHead_filter (noWSHead_strip l) ws_imp_ne_ten) ws_imp_ne_thirteen)

theorem noWSHead_normalizeLabel_rev (l : Label) : NoWSHead (normalizeLabel l).reverse := by
  unfold normalizeLabel upperLabel removeCh
  rw [← List.map_reverse, ← List.filter_reverse, ← List.filter_reverse]
  exact noWSHead_map_upCh
    (noWSHead_filter (noWSHead_filter (noWSHead_strip_rev l) ws_imp_ne_ten) ws_imp_ne_thirteen)

/-- Every code point of a normalized label is a fixed point of
upper-casing and is neither newline nor carriage return. -/
theorem normalizeLabel_chars {l : Label} {ch : Nat} (h : ch ∈ normalizeLabel l) :
    upCh ch = ch ∧ ch ≠ 10 ∧ ch ≠ 13 := by
  simp only [normalizeLabel, upperLabel, removeCh, List.mem_map, List.mem_filter,
    decide_eq_true_eq] at h
  obtain ⟨b, ⟨⟨_, hb10⟩, hb13⟩, rfl⟩ := h
  refine ⟨upCh_idem b, ?_, ?_⟩
  · exact fun hh => hb10 (upCh_eq_ten hh)
  · exact fun hh => hb13 (upCh_eq_thirteen hh)

theorem cSTATE_chars : ∀ ch ∈ cSTATE, upCh ch = ch ∧ ch ≠ 10 ∧ ch ≠ 13 := by decide

theorem cTOTAL_chars : ∀ ch ∈ cTOTAL, upCh ch = ch ∧ ch ≠ 10 ∧ ch ≠ 13 := by decide

theorem getCell_none_of_not_hasCol {t : Table} {r : Row} {c : Label} (hw : Wf t)
    (hr : r ∈ t.rows) (hc : hasCol t c = false) : getCell r c = none := by
  apply getCell_none_of_not_key
  intro kv hkv heq
  simp only [hasCol, decide_eq_false_iff_not] at hc
  exact hc (heq ▸ hw r hr kv hkv)

/-! ### Claims -/

/-- C1: for every dataset and selected triple (S, D, Y), the filtered
row subset contains exactly the rows whose `STATE/UT`, `DISTRICT` and
`YEAR` cells simultaneously equal S, D and Y — the logical AND of three
exact equality tests, nothing fuzzy, nothing case-insensitive. -/
theorem filteredData_mem (t : Table) (s d y : Value) (r : Row) :
    r ∈ (filteredData t s d y).rows ↔
      r ∈ t.rows ∧ getCell r cSTATE = some s ∧ getCell r cDISTRICT = some d ∧
        getCell r cYEAR = some y := by
  simp [filteredData, rowMatches, List.mem_filter, and_assoc]

/-- C2: the header transformation normalizes each label (trim, remove
newline and carriage return, upper-case) and then applies the fixed
rename table; every resulting column name is upper-case (fixed by
upper-casing) and contains no newline (10) or carriage return (13). -/
theorem normalizeColumns_upper_clean (t : Table) :
    ∀ name ∈ (normalizeColumns t).cols, ∀ ch ∈ name,
      upCh ch = ch ∧ ch ≠ 10 ∧ ch ≠ 13 := by
  intro name hname ch hch
  simp only [normalizeColumns, renameKeys, List.mem_map] at hname
  obtain ⟨c0, _, rfl⟩ := hname
  unfold renameCol at hch
  split_ifs at hch
  · exact cSTATE_chars ch hch
  · exact cSTATE_chars ch hch
  · exact cTOTAL_chars ch hch
  · exact normalizeLabel_chars hch

/-- Witness for C2 at a concrete table with one raw header
`"  murder"`, which normalizes to `MURDER`; the letter `M` (77). -/
theorem normalizeColumns_upper_clean_w :
    upCh 77 = 77 ∧ (77 : Nat) ≠ 10 ∧ (77 : Nat) ≠ 13 :=
  normalizeColumns_upper_clean (Table.mk [lbl "  murder"] []) (lbl "MURDER")
    (by decide) 77 (by decide)

/-- C4: after the coercion-and-drop step every remaining row has
non-null `STATE/UT`, `DISTRICT` and `YEAR` cells, and the `YEAR` cell
is numeric; the working dataset (from which all filter options are
derived) is `cleanTable`. -/
theorem cleanTable_invariant (t : Table) :
    ∀ r ∈ (cleanTable t).rows,
      (∃ v, getCell r cSTATE = some v ∧ v ≠ Value.null) ∧
      (∃ v, getCell r cDISTRICT = some v ∧ v ≠ Value.null) ∧
      (∃ n : Int, getCell r cYEAR = some (Value.num n)) :=
  fun _ hr => mem_cleanTable_rows hr

/-- Witness for C4 at the first row of the cleaned demo table. -/
theorem cleanTable_invariant_w :
    (∃ v, getCell [(cSTATE, Value.str (lbl "X")), (cDISTRICT, Value.str (lbl "D1")),
        (cYEAR, Value.num 2001), (lbl "MURDER", Value.num 5), (cTOTAL, Value.num 40)]
        cSTATE = some v ∧ v ≠ Value.null) ∧
    (∃ v, getCell [(cSTATE, Value.str (lbl "X")), (cDISTRICT, Value.str (lbl "D1")),
        (cYEAR, Value.num 2001), (lbl "MURDER", Value.num 5), (cTOTAL, Value.num 40)]
        cDISTRICT = some v ∧ v ≠ Value.null) ∧
    (∃ n : Int, getCell [(cSTATE, Value.str (lbl "X")), (cDISTRICT, Value.str (lbl "D1")),
        (cYEAR, Value.num 2001), (lbl "MURDER", Value.num 5), (cTOTAL, Value.num 40)]
        cYEAR = some (Value.num n)) :=
  cleanTable_invariant demoTable
    [(cSTATE, Value.str (lbl "X")), (cDISTRICT, Value.str (lbl "D1")),
      (cYEAR, Value.num 2001), (lbl "MURDER", Value.num 5), (cTOTAL, Value.num 40)]
    (by decide)

/-- C5: every value passed to the pie chart is strictly positive, and
when nothing remains after the exclusions the pie view degrades to the
informational placeholder. -/
theorem pieValues_positive (c : Table) (s d y : Value) (crimes : List Label) :
    (∀ p ∈ pieValues c (filteredData c s d y).rows crimes, 0 < p.2) ∧
    (pieValues c (filteredData c s d y).rows crimes = [] →
      pieViewOf c s d y crimes = none) := by
  constructor
  · intro p hp
    simp only [pieValues, List.mem_filter, decide_eq_true_eq] at hp
    exact hp.2
  · intro h
    simp [pieViewOf, h]

/-- Witness for C5: the demo table's `MURDER` total 5 over the filtered
subset (X, D1, 2001) is strictly positive. -/
theorem pieValues_positive_w :
    (0 : Int) < ((lbl "MURDER", (5 : Int)) : Label × Int).2 :=
  (pieValues_positive (cleanTable demoTable) (Value.str (lbl "X")) (Value.str (lbl "D1"))
    (Value.num 2001) [lbl "MURDER"]).1 (lbl "MURDER", 5) (by decide)

/-- C9: the per-label normalization (trim, remove newline and carriage
return, upper-case) is idempotent. -/
theorem normalizeLabel_idempotent (l : Label) :
    normalizeLabel (normalizeLabel l) = normalizeLabel l := by
  have hchars : ∀ ch ∈ normalizeLabel l, upCh ch = ch ∧ ch ≠ 10 ∧ ch ≠ 13 :=
    fun ch hc => normalizeLabel_chars hc
  have hstrip : stripLabel (normalizeLabel l) = normalizeLabel l :=
    strip_eq_self (noWSHead_normalizeLabel l) (noWSHead_normalizeLabel_rev l)
  have h10 : removeCh 10 (normalizeLabel l) = normalizeLabel l := by
    unfold removeCh
    exact List.filter_eq_self.mpr (fun a ha => by
      simp only [decide_eq_true_eq]
      exact (hchars a ha).2.1)
  have h13 : removeCh 13 (normalizeLabel l) = normalizeLabel l := by
    unfold removeCh
    exact List.filter_eq_self.mpr (fun a ha => by
      simp only [decide_eq_true_eq]
      exact (hchars a ha).2.2)
  have hup : upperLabel (normalizeLabel l) = normalizeLabel l := by
    unfold upperLabel
    have h2 : (normalizeLabel l).map upCh = (normalizeLabel l).map (fun a => a) :=
      List.map_congr_left (fun a ha => (hchars a ha).1)
    rw [h2, List.map_id']
  calc normalizeLabel (normalizeLabel l)
      = upperLabel (removeCh 13 (removeCh 10 (stripLabel (normalizeLabel l)))) := rfl
    _ = normalizeLabel l := by rw [hstrip, h10, h13, hup]

/-- C10: on the demo dataset, district `D1` and year 2002 are both
offered as filter options for state `X` (years are restricted by state
only, not by district), yet their combination matches zero rows, so the
filtered-table view degrades to the "no data" warning. -/
theorem options_vs_filter_gap :
    Value.str (lbl "D1") ∈ districtOptions (cleanTable demoTable) (Value.str (lbl "X")) ∧
    Value.num 2002 ∈ yearOptions (cleanTable demoTable) (Value.str (lbl "X")) ∧
    (filteredData (cleanTable demoTable) (Value.str (lbl "X")) (Value.str (lbl "D1"))
      (Value.num 2002)).rows = [] ∧
    tableViewOf (cleanTable demoTable) (Value.str (lbl "X")) (Value.str (lbl "D1"))
      (Value.num 2002) [lbl "MURDER"] = none := by
  decide

theorem hasCol_addColConst_iff {t : Table} {c c' : Label} {v : Value} :
    hasCol (addColConst c v t) c' = true ↔ (hasCol t c' = true ∨ c' = c) := by
  simp [hasCol, addColConst, List.mem_append]

theorem hasCol_addColConst_ne {t : Table} {c c' : Label} {v : Value} (h : c' ≠ c) :
    hasCol (addColConst c v t) c' = hasCol t c' := by
  simp only [hasCol, addColConst]
  rw [decide_eq_decide]
  simp [List.mem_append, h]

/-- C3: the backfiller guarantees `DISTRICT` and `YEAR` exist in the
output schema; when absent in the input every row receives the literal
`"ALL"` / the constant 2012, and when present the column's values are
left unchanged. -/
theorem backfill_spec (t : Table) (hw : Wf t) :
    hasCol (backfill t) cDISTRICT = true ∧ hasCol (backfill t) cYEAR = true ∧
    (hasCol t cDISTRICT = false →
      ∀ r ∈ (backfill t).rows, getCell r cDISTRICT = some (Value.str (lbl "ALL"))) ∧
    (hasCol t cYEAR = false →
      ∀ r ∈ (backfill t).rows, getCell r cYEAR = some (Value.num 2012)) ∧
    (hasCol t cDISTRICT = true →
      (backfill t).rows.map (fun r => getCell r cDISTRICT) =
        t.rows.map (fun r => getCell r cDISTRICT)) ∧
    (hasCol t cYEAR = true →
      (backfill t).rows.map (fun r => getCell r cYEAR) =
        t.rows.map (fun r => getCell r cYEAR)) := by
  have hDY : cYEAR ≠ cDISTRICT := by decide
  have hYD : cDISTRICT ≠ cYEAR := by decide
  cases hD : hasCol t cDISTRICT with
  | true =>
    have hbd : backfillDistrict t = t := by simp [backfillDistrict, hD]
    cases hY : hasCol t cYEAR with
    | true =>
      have hb : backfill t = t := by simp [backfill, hbd, backfillYear, hY]
      rw [hb]
      exact ⟨hD, hY, fun h => absurd h (by simp [hD]), fun h => absurd h (by simp [hY]),
        fun _ => rfl, fun _ => rfl⟩
    | false =>
      have hb : backfill t = addColConst cYEAR (Value.num 2012) t := by
        simp [backfill, hbd, backfillYear, hY]
      rw [hb]
      refine ⟨?_, ?_, ?_, ?_, ?_, ?_⟩
      · rw [hasCol_addColConst_iff]; exact Or.inl hD
      · rw [hasCol_addColConst_iff]; exact Or.inr rfl
      · exact fun h => absurd h (by simp [hD])
      · intro _ r hr
        simp only [addColConst, List.mem_map] at hr
        obtain ⟨r0, hr0, rfl⟩ := hr
        exact getCell_append_none r0 cYEAR (Value.num 2012)
          (getCell_none_of_not_hasCol hw hr0 hY)
      · intro _
        simp only [addColConst]
        rw [List.map_map]
        exact List.map_congr_left (fun r0 _ => getCell_append_ne r0 cYEAR cDISTRICT _ hYD)
      · exact fun h => absurd h (by simp [hY])
  | false =>
    have hbd : backfillDistrict t = addColConst cDISTRICT (Value.str (lbl "ALL")) t := by
      simp [backfillDistrict, hD]
    have hY1 : hasCol (backfillDistrict t) cYEAR = hasCol t cYEAR := by
      rw [hbd]; exact hasCol_addColConst_ne hDY
    cases hY : hasCol t cYEAR with
    | true =>
      have hb : backfill t = addColConst cDISTRICT (Value.str (lbl "ALL")) t := by
        rw [backfill, backfillYear, hY1, hY, if_pos rfl, hbd]
      rw [hb]
      refine ⟨?_, ?_, ?_, ?_, ?_, ?_⟩
      · rw [hasCol_addColConst_iff]; exact Or.inr rfl
      · rw [hasCol_addColConst_iff]; exact Or.inl hY
      · intro _ r hr
        simp only [addColConst, List.mem_map] at hr
        obtain ⟨r0, hr0, rfl⟩ := hr
        exact getCell_append_none r0 cDISTRICT _ (getCell_none_of_not_hasCol hw hr0 hD)
      · exact fun h => absurd h (by simp [hY])
      · exact fun h => absurd h (by simp [hD])
      · intro _
        simp only [addColConst]
        rw [List.map_map]
        exact List.map_congr_left (fun r0 _ => getCell_append_ne r0 cDISTRICT cYEAR _ hDY)
    | false =>
      have hb : backfill t = addColConst cYEAR (Value.num 2012)
          (addColConst cDISTRICT (Value.str (lbl "ALL")) t) := by
        rw [backfill, backfillYear, hY1, hY, if_neg (by simp), hbd]
      rw [hb]
      refine ⟨?_, ?_, ?_, ?_, ?_, ?_⟩
      · rw [hasCol_addColConst_iff]
        exact Or.inl (by rw [hasCol_addColConst_iff]; exact Or.inr rfl)
      · rw [hasCol_addColConst_iff]; exact Or.inr rfl
      · intro _ r hr
        simp only [addColConst, List.mem_map] at hr
        obtain ⟨r1, ⟨r0, hr0, rfl⟩, rfl⟩ := hr
        rw [getCell_append_ne _ _ _ _ hYD]
        exact getCell_append_none r0 cDISTRICT _ (getCell_none_of_not_hasCol hw hr0 hD)
      · intro _ r hr
        simp only [addColConst, List.mem_map] at hr
        obtain ⟨r1, ⟨r0, hr0, rfl⟩, rfl⟩ := hr
        apply getCell_append_none
        rw [getCell_append_ne _ _ _ _ hDY]
        exact getCell_none_of_not_hasCol hw hr0 hY
      · exact fun h => absurd h (by simp [hD])
      · exact fun h => absurd h (by simp [hY])

/-- Witness for C3: a one-column, one-row table gains `DISTRICT = "ALL"`. -/
theorem backfill_spec_w :
    getCell [(cSTATE, Value.str (lbl "Goa")), (cDISTRICT, Value.str (lbl "ALL")),
        (cYEAR, Value.num 2012)] cDISTRICT = some (Value.str (lbl "ALL")) :=
  (backfill_spec (Table.mk [cSTATE] [[(cSTATE, Value.str (lbl "Goa"))]])
    (by decide)).2.2.1 (by decide) _ (by decide)

/-- C6: the top-5 ranking groups the working table by `STATE/UT`
summing the numeric-coerced `TOTAL IPC CRIMES`; it has at most five
entries, is sorted descending by the summed value, its keys are
pairwise distinct states, and the ranking view is only attempted when
the total column exists. -/
theorem top5_spec (t : Table) :
    (top5 t).length ≤ 5 ∧
    List.Sorted pairDesc (top5 t) ∧
    ((top5 t).map Prod.fst).Nodup ∧
    (∀ s d y crimes, hasCol t cTOTAL = false →
      (mkViews t s d y crimes).rankView = none) := by
  refine ⟨?_, ?_, ?_, ?_⟩
  · unfold top5
    rw [List.length_take]
    exact min_le_left _ _
  · exact List.Pairwise.sublist (List.take_sublist _ _)
      (List.sorted_insertionSort pairDesc _)
  · unfold top5
    rw [List.map_take]
    apply List.Nodup.sublist (List.take_sublist _ _)
    rw [((List.perm_insertionSort pairDesc _).map Prod.fst).nodup_iff, groupSum_keys]
    exact groupKeys_nodup _ _
  · intro s d y crimes h
    simp [mkViews, rankViewOf, h]

/-- Witness for C6: a table without `TOTAL IPC CRIMES` has no ranking
view. -/
theorem top5_spec_w :
    (mkViews (Table.mk [cSTATE] []) (Value.str (lbl "X")) (Value.str (lbl "X"))
      (Value.num 0) []).rankView = none :=
  (top5_spec (Table.mk [cSTATE] [])).2.2.2 (Value.str (lbl "X")) (Value.str (lbl "X"))
    (Value.num 0) [] (by decide)

/-- C7: the trend series for a state is sorted ascending by `YEAR`,
has exactly one summed entry per distinct year present for that state
in the working table, and an empty series degrades the trend view to a
warning. -/
theorem trendData_spec (t : Table) (s : Value) :
    List.Sorted pairKeyAsc (trendData (cleanTable t) s) ∧
    ((trendData (cleanTable t) s).map Prod.fst).Nodup ∧
    (∀ k, k ∈ (trendData (cleanTable t) s).map Prod.fst ↔
      k ∈ columnValues (stateSlice (cleanTable t) s) cYEAR) ∧
    (trendData (cleanTable t) s = [] → trendViewOf (cleanTable t) s = none) := by
  have hne : cYEAR ≠ cTOTAL := by decide
  refine ⟨?_, ?_, ?_, ?_⟩
  · exact List.sorted_insertionSort pairKeyAsc _
  · unfold trendData
    rw [((List.perm_insertionSort pairKeyAsc _).map Prod.fst).nodup_iff, groupSum_keys]
    exact groupKeys_nodup _ _
  · intro k
    unfold trendData
    rw [((List.perm_insertionSort pairKeyAsc _).map Prod.fst).mem_iff, groupSum_keys,
      mem_groupKeys, columnValues_mapColVals_ne _ _ _ _ hne]
    constructor
    · exact fun h => h.1
    · intro h
      refine ⟨h, ?_⟩
      simp only [columnValues, List.mem_filterMap] at h
      obtain ⟨r, hr, hg⟩ := h
      have hr' : r ∈ (cleanTable t).rows := (List.mem_filter.mp hr).1
      obtain ⟨-, -, n, hn⟩ := mem_cleanTable_rows hr'
      rw [hn] at hg
      rcases Option.some.inj hg with rfl
      simp
  · intro h
    simp [trendViewOf, h]

/-- Witness for C7: a state absent from the demo table has an empty
trend series, so the trend view shows the warning. -/
theorem trendData_spec_w :
    trendViewOf (cleanTable demoTable) (Value.str (lbl "Z")) = none :=
  (trendData_spec demoTable (Value.str (lbl "Z"))).2.2.2 (by decide)

/-- C8: exactly three conditions are fatal (no files, parse failure,
required columns still missing after normalization and backfill), each
producing a fatal stop with no views; otherwise the run yields all four
views, each computed by its own independent function. -/
theorem runApp_spec (files : List Label) (parsed : Option Table) (sel : Selection) :
    (runApp files parsed sel = AppResult.fatalNoFiles ↔ files = []) ∧
    (runApp files parsed sel = AppResult.fatalParse ↔ files ≠ [] ∧ parsed = none) ∧
    (runApp files parsed sel = AppResult.fatalMissingCols ↔ files ≠ [] ∧
      ∃ raw, parsed = some raw ∧
        requiredPresent (backfill (normalizeColumns raw)) = false) ∧
    (∀ raw, files ≠ [] → parsed = some raw →
      requiredPresent (backfill (normalizeColumns raw)) = true →
      runApp files parsed sel =
        AppResult.ok (mkViews (cleanTable (backfill (normalizeColumns raw)))
          sel.state sel.district sel.year sel.crimes)) := by
  by_cases hf : files = []
  · simp [runApp, hf]
  · cases parsed with
    | none => simp [runApp, hf]
    | some raw =>
      by_cases hreq : requiredPresent (backfill (normalizeColumns raw)) = true
      · simp [runApp, hf, hreq]
      · rw [Bool.not_eq_true] at hreq
        simp [runApp, hf, hreq]

/-- Witness for C8: a complete run over the demo table reaches the
non-fatal branch and yields the four views. -/
theorem runApp_spec_w :
    runApp [lbl "crime.csv"] (some demoTable)
        (Selection.mk (Value.str (lbl "X")) (Value.str (lbl "D1")) (Value.num 2001)
          [lbl "MURDER"]) =
      AppResult.ok (mkViews (cleanTable (backfill (normalizeColumns demoTable)))
        (Value.str (lbl "X")) (Value.str (lbl "D1")) (Value.num 2001) [lbl "MURDER"]) :=
  (runApp_spec [lbl "crime.csv"] (some demoTable)
    (Selection.mk (Value.str (lbl "X")) (Value.str (lbl "D1")) (Value.num 2001)
      [lbl "MURDER"])).2.2.2 demoTable (by decide) rfl (by decide)

end CrimeApp
